import Mathlib

/-
Verification of the cyecca Lie-group core against its specification.

The development shallowly embeds the repository's Python sources:
  * src/cyecca/models/rdd2.py      : calculate_N, exp_mixed (strapdown INS step)
  * src/cyecca/lie/group_se23.py   : the SE23 algebra/group as written in src
  * src/cyecca/lie/_se2.py         : the SE2 algebra/group

Real vectors and small matrices are explicit structures over ℝ; machine
floats are modelled as exact reals, and a float division whose denominator
is zero (an IEEE 0/0) is modelled as failure (Option.none).  Parts of the
repository a claim depends on that are not under src (cyecca.lie.base,
cyecca.lie.group_so3, cyecca.lie._so2, cyecca.symbolic.SERIES, the
SE23 element accessor classes) are modelled from the spec and marked
"Modelled from the spec" in their doc comments.
-/

noncomputable section

/-! ## Small fixed-size real vectors and matrices -/

/-- Column 3-vector over ℝ. -/
@[ext]
structure V3 where
  x : ℝ
  y : ℝ
  z : ℝ

/-- Square 3x3 real matrix, row-major fields. -/
@[ext]
structure M3 where
  m00 : ℝ
  m01 : ℝ
  m02 : ℝ
  m10 : ℝ
  m11 : ℝ
  m12 : ℝ
  m20 : ℝ
  m21 : ℝ
  m22 : ℝ

/-- Square 2x2 real matrix, row-major fields. -/
@[ext]
structure M22 where
  m00 : ℝ
  m01 : ℝ
  m10 : ℝ
  m11 : ℝ

/-- Real 3x2 matrix, stored as its two columns (the shape of the
position/velocity block of SE23 and of calculate_N's output). -/
@[ext]
structure M32 where
  c0 : V3
  c1 : V3

def v3zero : V3 := ⟨0, 0, 0⟩

def v3add (a b : V3) : V3 := ⟨a.x + b.x, a.y + b.y, a.z + b.z⟩

def v3smul (c : ℝ) (a : V3) : V3 := ⟨c * a.x, c * a.y, c * a.z⟩

/-- Euclidean norm of a 3-vector (np.linalg.norm / ca.norm_2). -/
def vnorm (a : V3) : ℝ := Real.sqrt (a.x ^ 2 + a.y ^ 2 + a.z ^ 2)

def m3zero : M3 := ⟨0, 0, 0, 0, 0, 0, 0, 0, 0⟩

def m3id : M3 := ⟨1, 0, 0, 0, 1, 0, 0, 0, 1⟩

def m3add (A B : M3) : M3 :=
  ⟨A.m00 + B.m00, A.m01 + B.m01, A.m02 + B.m02,
   A.m10 + B.m10, A.m11 + B.m11, A.m12 + B.m12,
   A.m20 + B.m20, A.m21 + B.m21, A.m22 + B.m22⟩

def m3smul (c : ℝ) (A : M3) : M3 :=
  ⟨c * A.m00, c * A.m01, c * A.m02,
   c * A.m10, c * A.m11, c * A.m12,
   c * A.m20, c * A.m21, c * A.m22⟩

def m3sub (A B : M3) : M3 :=
  ⟨A.m00 - B.m00, A.m01 - B.m01, A.m02 - B.m02,
   A.m10 - B.m10, A.m11 - B.m11, A.m12 - B.m12,
   A.m20 - B.m20, A.m21 - B.m21, A.m22 - B.m22⟩

def m3mul (A B : M3) : M3 :=
  ⟨A.m00 * B.m00 + A.m01 * B.m10 + A.m02 * B.m20,
   A.m00 * B.m01 + A.m01 * B.m11 + A.m02 * B.m21,
   A.m00 * B.m02 + A.m01 * B.m12 + A.m02 * B.m22,
   A.m10 * B.m00 + A.m11 * B.m10 + A.m12 * B.m20,
   A.m10 * B.m01 + A.m11 * B.m11 + A.m12 * B.m21,
   A.m10 * B.m02 + A.m11 * B.m12 + A.m12 * B.m22,
   A.m20 * B.m00 + A.m21 * B.m10 + A.m22 * B.m20,
   A.m20 * B.m01 + A.m21 * B.m11 + A.m22 * B.m21,
   A.m20 * B.m02 + A.m21 * B.m12 + A.m22 * B.m22⟩

def m3trace (A : M3) : ℝ := A.m00 + A.m11 + A.m22

def mulM3V3 (A : M3) (v : V3) : V3 :=
  ⟨A.m00 * v.x + A.m01 * v.y + A.m02 * v.z,
   A.m10 * v.x + A.m11 * v.y + A.m12 * v.z,
   A.m20 * v.x + A.m21 * v.y + A.m22 * v.z⟩

def m22zero : M22 := ⟨0, 0, 0, 0⟩

def m22id : M22 := ⟨1, 0, 0, 1⟩

def m22add (A B : M22) : M22 := ⟨A.m00 + B.m00, A.m01 + B.m01, A.m10 + B.m10, A.m11 + B.m11⟩

def m22neg (A : M22) : M22 := ⟨-A.m00, -A.m01, -A.m10, -A.m11⟩

def m22smul (c : ℝ) (A : M22) : M22 := ⟨c * A.m00, c * A.m01, c * A.m10, c * A.m11⟩

def m32zero : M32 := ⟨v3zero, v3zero⟩

def m32add (A B : M32) : M32 := ⟨v3add A.c0 B.c0, v3add A.c1 B.c1⟩

def m32smul (c : ℝ) (A : M32) : M32 := ⟨v3smul c A.c0, v3smul c A.c1⟩

/-- Product of a 3x3 matrix with a 3x2 matrix, columnwise. -/
def m3m32mul (M : M3) (A : M32) : M32 := ⟨mulM3V3 M A.c0, mulM3V3 M A.c1⟩

/-- Product of a 3x2 matrix with a 2x2 matrix, columnwise. -/
def m32m22mul (A : M32) (B : M22) : M32 :=
  ⟨v3add (v3smul B.m00 A.c0) (v3smul B.m10 A.c1),
   v3add (v3smul B.m01 A.c0) (v3smul B.m11 A.c1)⟩

/-- Modelled from the spec: so3.to_Matrix, the 3x3 skew matrix of a 3-vector
(group_so3.py is not under src; spec section 4.3). -/
def skew (v : V3) : M3 := ⟨0, -v.z, v.y, v.z, 0, -v.x, -v.y, v.x, 0⟩

/-! ## Series evaluator

Modelled from the spec: cyecca.symbolic's SERIES table (not under src) maps a
named analytic function with a removable singularity at zero to a callable that
is the exact closed form away from zero and a matched Taylor polynomial below a
fixed small threshold (spec section 2). -/

/-- Modelled from the spec: the fixed switch threshold of the series evaluator. -/
def seriesEps : ℝ := 1e-6

/-- Modelled from the spec: SERIES entry sin(x)/x. -/
def seriesSinXDivX (t : ℝ) : ℝ :=
  if |t| < seriesEps then 1 - t ^ 2 / 6 + t ^ 4 / 120 else Real.sin t / t

/-- Modelled from the spec: SERIES entry (1 - cos(x))/x^2. -/
def seriesOneMinusCosDivX2 (t : ℝ) : ℝ :=
  if |t| < seriesEps then 1 / 2 - t ^ 2 / 24 + t ^ 4 / 720 else (1 - Real.cos t) / t ^ 2

/-- Modelled from the spec: SERIES entry (x - sin(x))/x^3. -/
def seriesXMinusSinDivX3 (t : ℝ) : ℝ :=
  if |t| < seriesEps then 1 / 6 - t ^ 2 / 120 + t ^ 4 / 5040 else (t - Real.sin t) / t ^ 3

/-- Modelled from the spec: SERIES entry (x^2/2 + cos(x) - 1)/x^4. -/
def seriesHalfX2PlusCosMinusOneDivX4 (t : ℝ) : ℝ :=
  if |t| < seriesEps then 1 / 24 - t ^ 2 / 720 + t ^ 4 / 40320
  else (t ^ 2 / 2 + Real.cos t - 1) / t ^ 4

/-! ## Quaternions and the SO3Quat operations

group_so3.py is not under src; these are modelled from spec section 4.3. -/

/-- Unit quaternion (w, x, y, z), scalar part first. -/
@[ext]
structure Quat where
  w : ℝ
  x : ℝ
  y : ℝ
  z : ℝ

def qOne : Quat := ⟨1, 0, 0, 0⟩

/-- Modelled from the spec: SO3Quat.product, the Hamilton quaternion product. -/
def quatMul (a b : Quat) : Quat :=
  ⟨a.w * b.w - a.x * b.x - a.y * b.y - a.z * b.z,
   a.w * b.x + a.x * b.w + a.y * b.z - a.z * b.y,
   a.w * b.y - a.x * b.z + a.y * b.w + a.z * b.x,
   a.w * b.z + a.x * b.y - a.y * b.x + a.z * b.w⟩

/-- Modelled from the spec: SO3Quat.to_Matrix, the rotation matrix of a unit
quaternion. -/
def quatToMatrix (q : Quat) : M3 :=
  ⟨1 - 2 * (q.y ^ 2 + q.z ^ 2), 2 * (q.x * q.y - q.w * q.z), 2 * (q.x * q.z + q.w * q.y),
   2 * (q.x * q.y + q.w * q.z), 1 - 2 * (q.x ^ 2 + q.z ^ 2), 2 * (q.y * q.z - q.w * q.x),
   2 * (q.x * q.z - q.w * q.y), 2 * (q.y * q.z + q.w * q.x), 1 - 2 * (q.x ^ 2 + q.y ^ 2)⟩

/-- Modelled from the spec: so3 exp into SO3Quat, the half-angle closed form
q = [cos(t/2), sin(t/2)·unit(w)] with the series fallback for sin(t/2)/(t/2)
as t goes to 0 (spec section 4.3): sin(t/2)·w/t = (1/2)·(sin(t/2)/(t/2))·w. -/
def so3ExpQuat (v : V3) : Quat :=
  let t := vnorm v
  let s := seriesSinXDivX (t / 2) / 2
  ⟨Real.cos (t / 2), s * v.x, s * v.y, s * v.z⟩

/-- Modelled from the spec: SO3Quat.log, w = 2·atan2(|v|, w)·v/|v| with the
symmetric small-angle fallback (spec section 4.3); atan2 is taken on the
w > 0 chart as arctan. -/
def so3LogQuat (q : Quat) : V3 :=
  let n := Real.sqrt (q.x ^ 2 + q.y ^ 2 + q.z ^ 2)
  let c := if n < seriesEps then 2 / q.w else 2 * Real.arctan (n / q.w) / n
  ⟨c * q.x, c * q.y, c * q.z⟩

/-! ## SE23 elements as rdd2.py uses them

Modelled from the spec: the SE23LieAlgebraElement / SE23LieGroupElement
accessor classes imported by rdd2.py are not under src.  The channel layout is
fixed by src itself: the se23 algebra parameter vector is
[v_b (position-rate, 0:3), a_b (velocity-rate, 3:6), Omega (angular, 6:9)]
(rdd2.py builds l = (0,0,0, a_b, omega_b) and r = (0,0,0, 0,0,-g, 0,0,0)),
and the SE23Quat group parameter vector is [p (0:3), v (3:6), q (6:10)]
(exp_mixed returns elem(vertcat(P1[:,1], P1[:,0], R1.param))). -/

/-- Algebra element of se23 split into its three channels. -/
@[ext]
structure SE23AlgElem where
  v_b : V3
  a_b : V3
  Omega : V3

/-- Group element of SE23Quat split into position, velocity and rotation. -/
@[ext]
structure SE23GrpElem where
  p : V3
  v : V3
  q : Quat

def se23AlgZero : SE23AlgElem := ⟨v3zero, v3zero, v3zero⟩

/-- Translated from src/cyecca/models/rdd2.py lines 529-549 (calculate_N):
A = horzcat(v.a_b, v.v_b), Omega the skew of the angular channel,
theta its norm, C1, C2, C3 the three SERIES coefficients at theta, and
N = A + A·B/2 + Omega·A·(C1·I + C2·B) + Omega²·A·(C2·I + C3·B). -/
def calculate_N (v : SE23AlgElem) (B : M22) : M32 :=
  let Omega := skew v.Omega
  let A : M32 := ⟨v.a_b, v.v_b⟩
  let theta := vnorm v.Omega
  let C1 := seriesOneMinusCosDivX2 theta
  let C2 := seriesXMinusSinDivX3 theta
  let C3 := seriesHalfX2PlusCosMinusOneDivX4 theta
  let AB := m32m22mul A B
  m32add
    (m32add (m32add A (m32smul (1 / 2) AB))
      (m3m32mul Omega (m32m22mul A (m22add (m22smul C1 m22id) (m22smul C2 B)))))
    (m3m32mul (m3mul Omega Omega) (m32m22mul A (m22add (m22smul C2 m22id) (m22smul C3 B))))

/-- Written from the words of the claim, to be compared with calculate_N as
translated from the source: N(v,B) = A + A·B/2 + Omega·A·(C1·I + C2·B) +
Omega²·A·(C2·I + C3·B) with A stacking the velocity-channel and
position-channel 3-vectors (velocity column first), Omega the skew matrix of
the rotation channel, theta its norm, and C1, C2, C3 the series-guarded
coefficients; here each 3x2 product A·(c·I + d·B) is written in the
distributed form c·A + d·(A·B). -/
def calculate_N_claim (v : SE23AlgElem) (B : M22) : M32 :=
  let Omega := skew v.Omega
  let A : M32 := ⟨v.a_b, v.v_b⟩
  let theta := vnorm v.Omega
  let C1 := seriesOneMinusCosDivX2 theta
  let C2 := seriesXMinusSinDivX3 theta
  let C3 := seriesHalfX2PlusCosMinusOneDivX4 theta
  m32add
    (m32add (m32add A (m32smul (1 / 2) (m32m22mul A B)))
      (m3m32mul Omega (m32add (m32smul C1 A) (m32smul C2 (m32m22mul A B)))))
    (m3m32mul (m3mul Omega Omega)
      (m32add (m32smul C2 A) (m32smul C3 (m32m22mul A B))))

/-- Translated from src/cyecca/models/rdd2.py lines 552-572 (exp_mixed):
P0 = horzcat(X0.v, X0.p); Pl = N(l, B); Pr = N(r, -B);
Rl = exp(l.Omega), Rr = exp(r.Omega) into SO3Quat; Rr0 = Rr·R0; R1 = Rr0·Rl;
P1 = Rr0·Pl + (Rr·P0 + Pr)·(I2 + B); result = elem(P1[:,1], P1[:,0], R1). -/
def exp_mixed (X0 : SE23GrpElem) (l r : SE23AlgElem) (B : M22) : SE23GrpElem :=
  let P0 : M32 := ⟨X0.v, X0.p⟩
  let Pl := calculate_N l B
  let Pr := calculate_N r (m22neg B)
  let R0 := X0.q
  let Rl := so3ExpQuat l.Omega
  let Rr := so3ExpQuat r.Omega
  let Rr0 := quatMul Rr R0
  let R1 := quatMul Rr0 Rl
  let P1 := m32add (m3m32mul (quatToMatrix Rr0) Pl)
    (m32m22mul (m32add (m3m32mul (quatToMatrix Rr) P0) Pr) (m22add m22id B))
  ⟨P1.c1, P1.c0, R1⟩

/-! ## The SE23 algebra/group exactly as written in src/cyecca/lie/group_se23.py

Elements are their raw parameter vectors (List ℝ, as numpy/casadi column
vectors).  Element construction checks the parameter length against the
algebra's/group's declared dimension and fails otherwise — modelled from the
spec (section 7, shape/dimension mismatch is a construction-time error;
cyecca.lie.base is not under src).  SE23LieGroup declares n_param = 10 and the
rotation flavour SO3Quat has 4 parameters; so3 has 3. -/

/-- Modelled from the spec: SO3Quat.elem, the construction-time length check
of the 4-parameter quaternion group. -/
def so3QuatElemOpt (l : List ℝ) : Option (List ℝ) :=
  if l.length = 4 then some l else none

/-- Modelled from the spec: so3.elem, the construction-time length check of
the 3-parameter so3 algebra. -/
def so3AlgElemOpt (l : List ℝ) : Option (List ℝ) :=
  if l.length = 3 then some l else none

/-- Modelled from the spec: SE23 elem, the construction-time length check
against the declared n_param = 10 (src line 89). -/
def se23ElemOpt (l : List ℝ) : Option (List ℝ) :=
  if l.length = 10 then some l else none

def v3OfList (l : List ℝ) : V3 := ⟨l.getD 0 0, l.getD 1 0, l.getD 2 0⟩

def v3ToList (v : V3) : List ℝ := [v.x, v.y, v.z]

def quatOfList (l : List ℝ) : Quat := ⟨l.getD 0 0, l.getD 1 0, l.getD 2 0, l.getD 3 0⟩

def quatToList (q : Quat) : List ℝ := [q.w, q.x, q.y, q.z]

namespace SE23LieGroup

/-- Translated from src/cyecca/lie/group_se23.py lines 91-98 (product):
R = SO3.elem(left.param[3:]).to_Matrix(); v = R @ right.param[:3] +
left.param[:3]; theta = (SO3.elem(left.param[3:]) * SO3.elem(right.param[3:]));
result = elem(block([v, theta])).  Note the slices: param[3:] of a 10-parameter
element has 7 entries. -/
def product (left right : List ℝ) : Option (List ℝ) := do
  let lq ← so3QuatElemOpt (left.drop 3)
  let R := quatToMatrix (quatOfList lq)
  let v := v3add (mulM3V3 R (v3OfList (right.take 3))) (v3OfList (left.take 3))
  let rq ← so3QuatElemOpt (right.drop 3)
  let theta := quatToList (quatMul (quatOfList lq) (quatOfList rq))
  se23ElemOpt (v3ToList v ++ theta)

/-- Translated from src/cyecca/lie/group_se23.py lines 119-144 (exp):
omega_so3 = SO3.algebra.elem(v[3:]) — v[3:] of a 9-parameter algebra element
has 6 entries; omega = norm(v[3:]); theta = omega_so3.exp(SO3).param;
u = v[0:3]; V = I + C2·Omega + C·Omega²; result = elem(block([V @ u, theta])).
The source binds C1 and C2 to the SERIES table entries and then uses them in
arithmetic without calling them at omega; they are read here as their values
at omega. -/
def exp (v : List ℝ) : Option (List ℝ) := do
  let omegaParam ← so3AlgElemOpt (v.drop 3)
  let omegaMatrix := skew (v3OfList omegaParam)
  let omega := Real.sqrt (((v.drop 3).map fun t => t ^ 2).sum)
  let theta := quatToList (so3ExpQuat (v3OfList omegaParam))
  let u := v3OfList (v.take 3)
  let C2 := seriesOneMinusCosDivX2 omega
  let C := if |omega| < 1e-7 then 1 / 6 - omega ^ 2 / 120 + omega ^ 4 / 5040
    else (1 - seriesSinXDivX omega) / omega ^ 2
  let V := m3add (m3add m3id (m3smul C2 omegaMatrix)) (m3smul C (m3mul omegaMatrix omegaMatrix))
  se23ElemOpt (v3ToList (mulM3V3 V u) ++ theta)

/-- Translated from src/cyecca/lie/group_se23.py lines 166-177 (to_Matrix):
R = SO3.elem(param[3:]).to_Matrix(), t = param[:3]; returned here as the
(R, t) pair that log reads back out of the 5x5 embedding. -/
def toMatrixRt (p : List ℝ) : Option (M3 × V3) := do
  let q ← so3QuatElemOpt (p.drop 3)
  pure (quatToMatrix (quatOfList q), v3OfList (p.take 3))

/-- Translated from src/cyecca/lie/group_se23.py lines 146-164 (log):
X = to_Matrix(arg); angle = param[3:]; theta = arccos((trace(R) - 1)/2);
angle_so3 = SO3.elem(angle).log(); V_inv = I - wSkew/2 +
(1/theta²)·(1 - C1/(2·C2))·wSkew²; result = algebra.elem(block([V_inv @ t,
angle_so3])).  As in exp, the source never calls the SERIES entries C1, C2 at
theta; they are read here as their values at theta, and the un-guarded
1/theta² factor is kept as written. -/
def log (p : List ℝ) : Option (List ℝ) := do
  let Rt ← toMatrixRt p
  let theta := Real.arccos ((m3trace Rt.1 - 1) / 2)
  let aq ← so3QuatElemOpt (p.drop 3)
  let angleSo3 := so3LogQuat (quatOfList aq)
  let wSkew := skew angleSo3
  let Vinv := m3add (m3add m3id (m3smul (-(1 / 2)) wSkew))
    (m3smul (1 / theta ^ 2 * (1 - seriesSinXDivX theta / (2 * seriesOneMinusCosDivX2 theta)))
      (m3mul wSkew wSkew))
  pure (v3ToList (mulM3V3 Vinv Rt.2) ++ v3ToList angleSo3)

end SE23LieGroup

namespace SE23LieAlgebra

/-- Translated from src/cyecca/lie/group_se23.py lines 56-63 (adjoint):
w = so3.elem(param[6:]).to_Matrix(), vx = skew of param[0:3] (the position
channel), and the returned value is np.block([[w, vx],[0(3x3), w]]) — a 6x6
matrix given as its four 3x3 blocks (top-left, top-right, bottom-left,
bottom-right).  The source's preceding line builds an unused `ax` from an
undefined name `p` (a NameError when executed); that dead statement has no
value to translate. -/
def adjointBlocks (param : List ℝ) : M3 × M3 × M3 × M3 :=
  let w := skew (v3OfList (param.drop 6))
  let vx := skew (v3OfList (param.take 3))
  (w, vx, m3zero, w)

end SE23LieAlgebra

/-! ## SE2 from src/cyecca/lie/_se2.py

An SE2 group or algebra element is its parameter triple (x, y, theta). -/

/-- Parameter triple (x, y, theta) of an se2/SE2 element. -/
@[ext]
structure SE2Vec where
  x : ℝ
  y : ℝ
  th : ℝ

/-- Modelled from the spec: SO2.to_matrix, the standard 2x2 rotation matrix
built from cos(theta), sin(theta) (_so2.py is not under src; spec section
4.2). -/
def so2ToMatrix (th : ℝ) : M22 :=
  ⟨Real.cos th, -Real.sin th, Real.sin th, Real.cos th⟩

namespace SE2LieGroup

/-- Translated from src/cyecca/lie/_se2.py lines 87-88: identity is the zero
parameter vector. -/
def identity : SE2Vec := ⟨0, 0, 0⟩

/-- Translated from src/cyecca/lie/_se2.py lines 71-77 (product):
R = SO2.element(left.param[2:]).to_matrix(); v = R @ right.param[:2] +
left.param[:2]; angle = left.param[2:] + right.param[2:]. -/
def product (left right : SE2Vec) : SE2Vec :=
  let R := so2ToMatrix left.th
  ⟨R.m00 * right.x + R.m01 * right.y + left.x,
   R.m10 * right.x + R.m11 * right.y + left.y,
   left.th + right.th⟩

/-- Translated from src/cyecca/lie/_se2.py lines 79-85 (inverse):
p = -Rᵀ @ v and the angle is negated. -/
def inverse (g : SE2Vec) : SE2Vec :=
  let R := so2ToMatrix g.th
  ⟨-(R.m00 * g.x + R.m10 * g.y), -(R.m01 * g.x + R.m11 * g.y), -g.th⟩

/-- Translated from src/cyecca/lie/_se2.py lines 97-108 (exp):
a = sin(theta)/theta and b = (1 - cos(theta))/theta are computed directly,
with no small-angle branch; the division with a zero denominator (the IEEE
0/0 that numpy evaluates at theta = 0) is modelled as failure. -/
def exp (v : SE2Vec) : Option SE2Vec :=
  if v.th = 0 then none
  else
    let a := Real.sin v.th / v.th
    let b := (1 - Real.cos v.th) / v.th
    some ⟨a * v.x - b * v.y, b * v.x + a * v.y, v.th⟩

/-- Translated from src/cyecca/lie/_se2.py lines 110-122 (log): a and b are
selected by np.where(|theta| < 1e-3) between the 4th-order Taylor fallback and
the closed form, then V_inv = [[a, b],[-b, a]]/(a² + b²) is applied to the
translation.  The division by a² + b² (zero only at a full turn, theta a
nonzero multiple of 2π, where log is singular) is modelled as failure there. -/
def log (g : SE2Vec) : Option SE2Vec :=
  let a := if |g.th| < 1e-3 then 1 - g.th ^ 2 / 6 + g.th ^ 4 / 120 else Real.sin g.th / g.th
  let b := if |g.th| < 1e-3 then g.th / 2 - g.th ^ 3 / 24 + g.th ^ 5 / 720
    else (1 - Real.cos g.th) / g.th
  if a ^ 2 + b ^ 2 = 0 then none
  else
    some ⟨(a * g.x + b * g.y) / (a ^ 2 + b ^ 2), (-b * g.x + a * g.y) / (a ^ 2 + b ^ 2), g.th⟩

end SE2LieGroup

/-! ## Binary operations with the owning-instance identity check

Every binary operation of the abstract contract first asserts that its
operands reference the same concrete algebra/group instance (src/_se2.py lines
72-73, 22-23, 30-31; src/group_se23.py lines 24-25).  Dispatch goes through
the left operand's owner, so the effective check is that the right operand's
owner is the left's.  Elements carry an owner tag here; the payload
computations are the ones translated from src. -/

/-- The concrete algebra/group singletons an element can reference. -/
inductive LieInstId where
  | se2Grp
  | se2Alg
  | se23Alg
  | se23Grp
  | so3Alg
deriving DecidableEq

/-- An element as the abstract contract sees it: its owning instance and its
raw parameter vector. -/
structure TaggedElem where
  gid : LieInstId
  param : List ℝ

/-- Outcome of a guarded binary operation: a result, the identity-mismatch
failure of the owner assert, or a later shape failure inside the payload. -/
inductive BinResult where
  | ok (param : List ℝ)
  | mismatch
  | shapeFail

/-- Translated from src/cyecca/lie/_se2.py lines 71-77 with the owner check of
lines 72-73 made explicit: on matching owners the SE2 product payload runs on
the parameter triples. -/
def checkedProduct (l r : TaggedElem) : BinResult :=
  if r.gid = l.gid then
    let a : SE2Vec := ⟨l.param.getD 0 0, l.param.getD 1 0, l.param.getD 2 0⟩
    let b : SE2Vec := ⟨r.param.getD 0 0, r.param.getD 1 0, r.param.getD 2 0⟩
    let c := SE2LieGroup.product a b
    .ok [c.x, c.y, c.th]
  else .mismatch

/-- Translated from src/cyecca/lie/_se2.py lines 27-32 (addition) with the
owner check made explicit: elementwise sum of the parameter vectors. -/
def checkedAdd (l r : TaggedElem) : BinResult :=
  if r.gid = l.gid then .ok (List.zipWith (· + ·) l.param r.param) else .mismatch

/-- Translated from src/cyecca/lie/_se2.py lines 47-55 (to_matrix): the 3x3
embedding [[0, -theta, x], [theta, 0, y], [0, 0, 0]] of an se2 algebra
element, with the so2 generator modelled from spec section 4.2. -/
def se2AlgToMatrix (p : List ℝ) : M3 :=
  ⟨0, -(p.getD 2 0), p.getD 0 0,
   p.getD 2 0, 0, p.getD 1 0,
   0, 0, 0⟩

/-- Translated from src/cyecca/lie/_se2.py lines 19-25 (bracket) with the
owner check made explicit: c = commutator of the 3x3 matrix embeddings,
result = [c[0,2], c[1,2], c[1,0]]. -/
def checkedBracketSE2 (l r : TaggedElem) : BinResult :=
  if r.gid = l.gid then
    let c := m3sub (m3mul (se2AlgToMatrix l.param) (se2AlgToMatrix r.param))
      (m3mul (se2AlgToMatrix r.param) (se2AlgToMatrix l.param))
    .ok [c.m02, c.m12, c.m10]
  else .mismatch

/-- Matrices of unconstrained shape as lists of rows, with a
dimension-checked product: defined only when every row of A is as long as B
has rows. -/
def dimMatMul (A B : List (List ℝ)) : Option (List (List ℝ)) :=
  if A.all fun row => row.length == B.length then
    some (A.map fun row =>
      (List.range (B.headD []).length).map fun j =>
        (List.zipWith (fun a brow => a * brow.getD j 0) row B).sum)
  else none

/-- Translated from src/cyecca/lie/group_se23.py lines 65-71 (to_Matrix of the
se23 algebra): np.block([[Omega, v, p], [Z15]]) — the three rows of the wedge
matrix [[skew(param[6:9]), param[3:6], param[0:3]]] followed by ONE 1x5 zero
row (Z15 = ca.SX(1,5)), a 4x5 matrix although matrix_shape is declared (5,5). -/
def se23AlgToMatrixRows (p : List ℝ) : List (List ℝ) :=
  let w1 := p.getD 6 0
  let w2 := p.getD 7 0
  let w3 := p.getD 8 0
  [[0, -w3, w2, p.getD 3 0, p.getD 0 0],
   [w3, 0, -w1, p.getD 4 0, p.getD 1 0],
   [-w2, w1, 0, p.getD 5 0, p.getD 2 0],
   [0, 0, 0, 0, 0]]

/-- Translated from src/cyecca/lie/group_se23.py lines 23-41 (bracket) with
the owner check of lines 24-25 made explicit: c = commutator of the matrix
embeddings, result = [c[0,4], c[1,4], c[2,4], c[0,3], c[1,3], c[2,3], c[2,1],
c[0,2], c[1,0]].  The embeddings are 4x5, so the commutator's products fail
the dimension check; that failure is a shape failure, not the mismatch
branch. -/
def checkedBracketSE23 (l r : TaggedElem) : BinResult :=
  if r.gid = l.gid then
    match dimMatMul (se23AlgToMatrixRows l.param) (se23AlgToMatrixRows r.param),
        dimMatMul (se23AlgToMatrixRows r.param) (se23AlgToMatrixRows l.param) with
    | some m1, some m2 =>
      let c := fun i j => ((m1.getD i []).getD j 0) - ((m2.getD i []).getD j 0)
      .ok [c 0 4, c 1 4, c 2 4, c 0 3, c 1 3, c 2 3, c 2 1, c 0 2, c 1 0]
    | _, _ => .shapeFail
  else .mismatch

/-! ## Helper lemmas -/

theorem vnorm_v3zero : vnorm v3zero = 0 := by
  simp [vnorm, v3zero]

theorem so3ExpQuat_v3zero : so3ExpQuat v3zero = qOne := by
  simp [so3ExpQuat, vnorm, v3zero, qOne]

theorem quatMul_qOne_left (q : Quat) : quatMul qOne q = q := by
  cases q
  simp [quatMul, qOne]

theorem quatMul_qOne_right (q : Quat) : quatMul q qOne = q := by
  cases q
  simp [quatMul, qOne]

theorem quatToMatrix_qOne : quatToMatrix qOne = m3id := by
  simp [quatToMatrix, qOne, m3id]

theorem m3m32mul_m3id (A : M32) : m3m32mul m3id A = A := by
  cases A
  simp [m3m32mul, mulM3V3, m3id]

theorem m3m32mul_m32zero (M : M3) : m3m32mul M m32zero = m32zero := by
  simp [m3m32mul, mulM3V3, m32zero, v3zero]

theorem m32m22mul_m22id (A : M32) : m32m22mul A m22id = A := by
  cases A
  simp [m32m22mul, m22id, v3add, v3smul]

theorem m32add_m32zero_left (A : M32) : m32add m32zero A = A := by
  cases A
  simp [m32add, m32zero, v3add, v3zero]

theorem calculate_N_se23AlgZero (B : M22) : calculate_N se23AlgZero B = m32zero := by
  simp [calculate_N, se23AlgZero, m32m22mul, m3m32mul, mulM3V3, m32add, m32smul,
    m22add, m22smul, m22id, v3add, v3smul, v3zero, m32zero, skew, m3mul]

/-! ## Claim theorems -/

/-- C5: the claim says both SE2 exp and SE2 log compute a = sin(theta)/theta
and b = (1 - cos(theta))/theta through the 4th-order Taylor fallback below the
1e-3 threshold so that no 0/0 occurs, and in particular exp(0) = identity.
The source's exp has no such branch: at the zero algebra element it divides
sin(0) and 1 - cos(0) by 0 (an IEEE 0/0) and so does not return the
identity. -/
theorem se2_exp_unguarded_division_at_zero : SE2LieGroup.exp ⟨0, 0, 0⟩ = none := by
  simp [SE2LieGroup.exp]

/-- C8: for every SE2 element g, product(g, inverse(g)) is the identity
(0, 0, 0); in particular at (1, 2, π/4). -/
theorem se2_product_inverse_identity (g : SE2Vec) :
    SE2LieGroup.product g (SE2LieGroup.inverse g) = SE2LieGroup.identity := by
  ext
  · simp only [SE2LieGroup.product, SE2LieGroup.inverse, SE2LieGroup.identity, so2ToMatrix]
    linear_combination (-g.x) * Real.sin_sq_add_cos_sq g.th
  · simp only [SE2LieGroup.product, SE2LieGroup.inverse, SE2LieGroup.identity, so2ToMatrix]
    linear_combination (-g.y) * Real.sin_sq_add_cos_sq g.th
  · simp only [SE2LieGroup.product, SE2LieGroup.inverse, SE2LieGroup.identity, so2ToMatrix]
    ring

/-- C9: a binary operation (product, addition, bracket) returns the
identity-mismatch failure exactly when its operands reference different
owning instances; with the same owner the mismatch branch is never taken
(the SE23 bracket then fails later on the malformed 4x5 embedding, which is
a shape failure, not the mismatch branch). -/
theorem binary_ops_owner_mismatch (l r : TaggedElem) :
    (checkedProduct l r = BinResult.mismatch ↔ r.gid ≠ l.gid)
    ∧ (checkedAdd l r = BinResult.mismatch ↔ r.gid ≠ l.gid)
    ∧ (checkedBracketSE2 l r = BinResult.mismatch ↔ r.gid ≠ l.gid)
    ∧ (checkedBracketSE23 l r = BinResult.mismatch ↔ r.gid ≠ l.gid) := by
  rcases eq_or_ne r.gid l.gid with h | h
  · simp [checkedProduct, checkedAdd, checkedBracketSE2, checkedBracketSE23, h,
      dimMatMul, se23AlgToMatrixRows]
  · simp [checkedProduct, checkedAdd, checkedBracketSE2, checkedBracketSE23, h]

/-- C3: the claim says SE23 product returns the semidirect product with both
the position and velocity channels rotated by the left rotation.  The source
slices left.param[3:] — 7 of the 10 parameters — as the rotation and hands it
to the 4-parameter SO3Quat flavour, a construction-time dimension error, so
product never returns a value on well-formed 10-parameter operands. -/
theorem se23_product_dim_error (l r : List ℝ) (hl : l.length = 10)
    (_hr : r.length = 10) : SE23LieGroup.product l r = none := by
  simp [SE23LieGroup.product, so3QuatElemOpt, hl]

/-- Witness for C3's theorem at two concrete 10-parameter elements. -/
theorem se23_product_dim_error_ex :
    SE23LieGroup.product (List.replicate 10 0) (List.replicate 10 0) = none :=
  se23_product_dim_error _ _ (by simp) (by simp)

/-- C6: the claim says SE23 exp at the zero algebra element returns the SE23
identity.  The source slices v[3:] — 6 of the 9 algebra parameters — as the
rotation channel and hands it to the 3-parameter so3 algebra, a
construction-time dimension error, so exp at the zero element (and at every
9-parameter element) never returns a value, let alone the identity. -/
theorem se23_exp_dim_error (v : List ℝ) (hv : v.length = 9) :
    SE23LieGroup.exp v = none := by
  simp [SE23LieGroup.exp, so3AlgElemOpt, hv]

/-- Witness for C6's theorem at the zero algebra element. -/
theorem se23_exp_dim_error_ex : SE23LieGroup.exp (List.replicate 9 0) = none :=
  se23_exp_dim_error _ (by simp)

/-- C4: the claim says SE23 log computes theta, the SO3 logarithm, and the
series-guarded V-inverse, with the near-zero case handled silently.  The
source's log first embeds the element via to_Matrix, which slices param[3:] —
7 of the 10 parameters — as the rotation for the 4-parameter SO3Quat flavour,
a construction-time dimension error, so log never returns a value on
well-formed 10-parameter elements. -/
theorem se23_log_dim_error (p : List ℝ) (hp : p.length = 10) :
    SE23LieGroup.log p = none := by
  simp [SE23LieGroup.log, SE23LieGroup.toMatrixRt, so3QuatElemOpt, hp]

/-- Witness for C4's theorem at the identity parameter vector. -/
theorem se23_log_dim_error_ex : SE23LieGroup.log (List.replicate 10 0) = none :=
  se23_log_dim_error _ (by simp)

/-- C7: the claim says the se23 algebra adjoint is a 9x9 block matrix whose
skew cross-term couples the velocity channel.  The source returns the four
3x3 blocks of a 6x6 matrix, and its cross-term block is the skew of
param[0:3] — the position channel — not of the velocity channel param[3:6]:
at the element with position channel (1,2,3) and velocity channel (4,5,6)
the cross block is skew(1,2,3), which differs from skew(4,5,6). -/
theorem se23_adjoint_cross_term_position_channel :
    (SE23LieAlgebra.adjointBlocks [1, 2, 3, 4, 5, 6, 0, 0, 0]).2.1 = skew ⟨1, 2, 3⟩
    ∧ skew (⟨1, 2, 3⟩ : V3) ≠ skew ⟨4, 5, 6⟩ := by
  constructor
  · simp [SE23LieAlgebra.adjointBlocks, v3OfList]
  · intro h
    have h01 := congrArg M3.m01 h
    simp only [skew] at h01
    norm_num at h01

theorem m32add_m32zero_right (A : M32) : m32add A m32zero = A := by
  cases A
  simp [m32add, m32zero, v3add, v3zero]

theorem m22add_m22id_m22zero : m22add m22id m22zero = m22id := by
  simp [m22add, m22id, m22zero]

theorem calculate_N_A_zero (om : V3) (B : M22) :
    calculate_N ⟨v3zero, v3zero, om⟩ B = m32zero := by
  simp [calculate_N, m32m22mul, m3m32mul, mulM3V3, m32add, m32smul,
    m22add, m22smul, m22id, v3add, v3smul, v3zero, m32zero, skew, m3mul]

/-- C2: calculate_N as translated from the source equals the claim's formula
N(v,B) = A + A·B/2 + Omega·A·(C1·I + C2·B) + Omega²·A·(C2·I + C3·B), with A
stacking the velocity-channel and position-channel 3-vectors (velocity column
first), Omega the skew of the rotation channel, theta its norm, and C1, C2,
C3 the series-guarded coefficients. -/
theorem calculate_N_matches_claim_formula (v : SE23AlgElem) (B : M22) :
    calculate_N v B = calculate_N_claim v B := by
  cases v
  cases B
  simp only [calculate_N, calculate_N_claim, skew, m3mul, m32m22mul, m3m32mul,
    mulM3V3, m32add, m32smul, m22add, m22smul, m22id, v3add, v3smul]
  simp only [M32.mk.injEq, V3.mk.injEq]
  refine ⟨⟨?_, ?_, ?_⟩, ⟨?_, ?_, ?_⟩⟩ <;> ring

/-- C10: exp_mixed with both increments the zero algebra element and the zero
coupling matrix returns its input state unchanged. -/
theorem exp_mixed_zero_increments_id (X0 : SE23GrpElem) :
    exp_mixed X0 se23AlgZero se23AlgZero m22zero = X0 := by
  cases X0
  simp only [exp_mixed, se23AlgZero]
  simp only [calculate_N_A_zero, so3ExpQuat_v3zero, quatMul_qOne_left,
    quatMul_qOne_right, quatToMatrix_qOne, m3m32mul_m32zero, m3m32mul_m3id,
    m32add_m32zero_left, m32add_m32zero_right, m22add_m22id_m22zero,
    m32m22mul_m22id]

/-- C1 (amended): with zero body increment l, the coupling matrix
B = dt·[[0,1],[0,0]] that derive_strapdown_ins_propagation passes (not the
zero coupling of the claim), and disturbance increment r·dt a pure constant
downward acceleration of magnitude g over the step, exp_mixed returns the
constant-acceleration kinematics update p1 = p0 + v0·dt + ½·a·dt² and
v1 = v0 + a·dt with a = (0, 0, -g), for every initial position, velocity and
rotation. -/
theorem exp_mixed_const_acceleration_kinematics (p0 v0 : V3) (q0 : Quat) (g dt : ℝ) :
    (exp_mixed ⟨p0, v0, q0⟩ se23AlgZero ⟨v3zero, ⟨0, 0, -(g * dt)⟩, v3zero⟩
        ⟨0, dt, 0, 0⟩).p
      = v3add (v3add p0 (v3smul dt v0)) (v3smul (dt ^ 2 / 2) ⟨0, 0, -g⟩)
    ∧ (exp_mixed ⟨p0, v0, q0⟩ se23AlgZero ⟨v3zero, ⟨0, 0, -(g * dt)⟩, v3zero⟩
        ⟨0, dt, 0, 0⟩).v
      = v3add v0 (v3smul dt ⟨0, 0, -g⟩) := by
  cases p0
  cases v0
  simp only [exp_mixed, se23AlgZero]
  simp only [calculate_N_A_zero, so3ExpQuat_v3zero, quatMul_qOne_left,
    quatMul_qOne_right, quatToMatrix_qOne, m3m32mul_m32zero, m3m32mul_m3id,
    m32add_m32zero_left]
  simp only [calculate_N, skew, m3mul, m32m22mul, m3m32mul, mulM3V3, m32add,
    m32smul, m22add, m22neg, m22smul, m22id, v3add, v3smul, v3zero, vnorm]
  simp only [M32.mk.injEq, V3.mk.injEq]
  refine ⟨⟨?_, ?_, ?_⟩, ⟨?_, ?_, ?_⟩⟩ <;> ring

/-- C1 counterexample: at p0 = v0 = 0, identity rotation, g = 1, dt = 1, and
the zero coupling matrix B exactly as the claim states, exp_mixed leaves the
position at (0,0,0), while the claimed closed form p0 + v0·dt + ½·a·dt² with
the downward acceleration a = (0,0,-1) is (0,0,-1/2): with B = 0 the
propagation adds no ½·g·dt² (nor v0·dt) term to the position. -/
theorem exp_mixed_zero_coupling_counterexample :
    (exp_mixed ⟨v3zero, v3zero, qOne⟩ se23AlgZero ⟨v3zero, ⟨0, 0, -1⟩, v3zero⟩
        m22zero).p
      ≠ v3add (v3add v3zero (v3smul 1 v3zero)) (v3smul (1 ^ 2 / 2) ⟨0, 0, -1⟩) := by
  have hp : (exp_mixed ⟨v3zero, v3zero, qOne⟩ se23AlgZero ⟨v3zero, ⟨0, 0, -1⟩, v3zero⟩
      m22zero).p = v3zero := by
    simp only [exp_mixed, se23AlgZero]
    simp only [calculate_N_A_zero, so3ExpQuat_v3zero, quatMul_qOne_left,
      quatMul_qOne_right, quatToMatrix_qOne, m3m32mul_m32zero, m3m32mul_m3id,
      m32add_m32zero_left]
    simp only [calculate_N, skew, m3mul, m32m22mul, m3m32mul, mulM3V3, m32add,
      m32smul, m22add, m22neg, m22smul, m22id, m22zero, v3add, v3smul, v3zero]
    simp only [V3.mk.injEq]
    refine ⟨?_, ?_, ?_⟩ <;> ring
  rw [hp]
  intro h
  have hz := congrArg V3.z h
  simp [v3zero, v3add, v3smul] at hz
